import Mathlib

/-!
Shallow embedding of the QlassifAI document-analysis pipeline
(`src/text_chunker.py`, `src/models.py`, `src/result_merger.py`,
`src/keyword_categorizer.py`, `src/llm_analyzer.py`) together with proofs
about the embedded operations.

Python strings are modelled as Lean `String` / `List Char`; python dicts as
association lists with unique keys (insertion order preserved, as python
dicts do); python `Optional` as `Option`; raising `ValueError` and friends
as `Except String`.
-/

deriving instance DecidableEq for Except

namespace QlassifAI

/-! ## Python-style string helpers -/

/-- The ASCII whitespace characters recognised by python's `str.isspace`,
`str.strip`, `str.split` and by `\s` in the `re` module (for ASCII text). -/
def pythonIsSpace (c : Char) : Bool :=
  c = ' ' || c = '\t' || c = '\n' || c = '\r' || c = '\x0b' || c = '\x0c'

/-- Python `str.strip()` on the character list: drop whitespace from both
ends. -/
def pyStripList (s : List Char) : List Char :=
  ((s.dropWhile pythonIsSpace).reverse.dropWhile pythonIsSpace).reverse

/-- Python `str.strip()`. -/
def pyStrip (s : String) : String :=
  ⟨pyStripList s.data⟩

/-- Python `str.lower()` (ASCII letters). -/
def pyLower (s : String) : String :=
  ⟨s.data.map Char.toLower⟩

/-- Python truthiness of an `Optional[str]`: `None` and the empty string are
falsy. -/
def pyTruthyOptStr : Option String → Bool
  | none => false
  | some s => s ≠ ""

/-- Python substring test `a in b` on character lists. -/
def pyInList (a b : List Char) : Bool :=
  (List.range (b.length + 1)).any fun i => a.isPrefixOf (b.drop i)

/-- Python substring test `a in b`. -/
def pyIn (a b : String) : Bool :=
  pyInList a.data b.data

theorem dropWhile_length_le {α : Type} (p : α → Bool) :
    ∀ l : List α, (l.dropWhile p).length ≤ l.length
  | [] => Nat.le_refl _
  | a :: l => by
    simp only [List.dropWhile]
    split
    · exact Nat.le_trans (dropWhile_length_le p l) (Nat.le_succ _)
    · exact Nat.le_refl _

/-- Python `str.split()` (no separator) on a character list, carrying the
reversed current word: split on runs of whitespace, discarding empty
pieces. -/
def pySplitWsAux : List Char → List Char → List (List Char)
  | [], acc => if acc = [] then [] else [acc.reverse]
  | c :: rest, acc =>
    if pythonIsSpace c then
      if acc = [] then pySplitWsAux rest []
      else acc.reverse :: pySplitWsAux rest []
    else pySplitWsAux rest (c :: acc)

/-- Python `str.split()` (no separator): split on runs of whitespace,
discarding empty pieces. -/
def pySplitWsList (l : List Char) : List (List Char) :=
  pySplitWsAux l []

/-- Python `str.split()` on `String`s, returning `String`s. -/
def pySplitWs (s : String) : List String :=
  (pySplitWsList s.data).map fun l => ⟨l⟩

/-- De-duplication keeping the first occurrence of each element, carrying
the set of elements already emitted. -/
def pyDedupAux {α : Type} [DecidableEq α] (seen : List α) : List α → List α
  | [] => []
  | x :: xs =>
    if x ∈ seen then pyDedupAux seen xs
    else x :: pyDedupAux (x :: seen) xs

/-- De-duplication keeping the first occurrence of each element, as python's
`dict.fromkeys` / set-insertion order does. -/
def pyDedup {α : Type} [DecidableEq α] (l : List α) : List α :=
  pyDedupAux [] l

/-- First value bound to `key` in an association list (python `dict` lookup:
keys are unique, so the first hit is the only one). -/
def pyDictGet {v : Type} (d : List (String × v)) (key : String) : Option v :=
  (d.find? (fun p => p.1 = key)).map (·.2)

/-- Python `key in dict`. -/
def pyDictHas {v : Type} (d : List (String × v)) (key : String) : Bool :=
  d.any (fun p => p.1 = key)

/-- Python `dict[key] = val`: overwrite in place if the key exists (python
dicts keep the original insertion position), else append. -/
def pyDictSet {v : Type} (d : List (String × v)) (key : String) (val : v) :
    List (String × v) :=
  if d.any (fun p => p.1 = key) then
    d.map (fun p => if p.1 = key then (key, val) else p)
  else
    d ++ [(key, val)]

/-! ## `src/text_chunker.py` — data model

`models.Chunk` is a dataclass of five fields; its `__post_init__` checks are
all provable for every chunk the chunker emits, so the structure is kept
plain here. -/

structure Chunk where
  chunk_id : Nat
  text : List Char
  char_count : Nat
  start_position : Nat
  end_position : Nat
deriving Repr, DecidableEq

namespace TextChunker

/-- `TextChunker.CHUNK_SIZE`. -/
def CHUNK_SIZE : Nat := 30000

/-- `TextChunker.SEARCH_WINDOW`. -/
def SEARCH_WINDOW : Nat := 500

/-- Length of the maximal run of whitespace at the head of the list:
the extent of a greedy `\s+` match. -/
def spaceRun : List Char → Nat
  | [] => 0
  | c :: rest => if pythonIsSpace c then spaceRun rest + 1 else 0

/-- A sentence-terminator character, the `[.!?]` character class of
`TextChunker.SENTENCE_ENDINGS`. -/
def isSentenceEnd (c : Char) : Bool :=
  c = '.' || c = '!' || c = '?'

/-- End offsets of the successive non-overlapping matches of the regex
`[.!?]\s+` in the window, scanning left to right with a greedy `\s+`,
exactly as `re.finditer` reports `m.end()`.  `i` is the offset of the head
of the remaining list inside the window. -/
def matchEnds : List Char → Nat → List Nat
  | [], _ => []
  | c :: rest, i =>
    if isSentenceEnd c && 0 < spaceRun rest then
      (i + 1 + spaceRun rest) :: matchEnds (rest.drop (spaceRun rest)) (i + 1 + spaceRun rest)
    else
      matchEnds rest (i + 1)
termination_by l _ => l.length
decreasing_by
  · simp only [List.length_cons, List.length_drop]
    omega
  · simp only [List.length_cons]
    omega

/-- Distance between two naturals, python `abs(a - b)` on ints. -/
def natDist (a b : Nat) : Nat := max a b - min a b

/-- `min(matches, key=lambda m: abs(m.end() - target_offset))`: python's
`min` keeps the first element among ties. -/
def pickClosest (t best : Nat) : List Nat → Nat
  | [] => best
  | e :: rest =>
    if natDist e t < natDist best t then pickClosest t e rest
    else pickClosest t best rest

/-- `TextChunker._find_nearest_whitespace`: search forward up to 1000
characters for a whitespace character, then backward up to 1000, and return
the position just after it; fall back to the target position itself.
Callers always pass `target_position < len(text)`, so the `getD` default is
never consulted. -/
def find_nearest_whitespace (text : List Char) (target_position : Nat) : Nat :=
  match (List.range' target_position (min text.length (target_position + 1000) - target_position)).find?
      (fun i => pythonIsSpace (text.getD i ' ')) with
  | some i => i + 1
  | none =>
    match ((List.range' (target_position - 1000 + 1) (target_position - (target_position - 1000))).reverse.find?
        (fun i => pythonIsSpace (text.getD i ' '))) with
    | some i => i + 1
    | none => target_position

/-- `search_start = max(0, target_position - SEARCH_WINDOW)` (natural
subtraction is exactly python's `max(0, ...)` here). -/
def search_start (target_position : Nat) : Nat := target_position - SEARCH_WINDOW

/-- `search_end = min(text_length, target_position + SEARCH_WINDOW)`. -/
def search_end (text : List Char) (target_position : Nat) : Nat :=
  min text.length (target_position + SEARCH_WINDOW)

/-- `search_window = text[search_start:search_end]`. -/
def search_window (text : List Char) (target_position : Nat) : List Char :=
  (text.drop (search_start target_position)).take
    (search_end text target_position - search_start target_position)

/-- `TextChunker._find_split_point`: look for sentence endings in a
±`SEARCH_WINDOW` window around the target, take the match end closest to
the target, and fall back to `_find_nearest_whitespace`. -/
def find_split_point (text : List Char) (target_position : Nat) : Nat :=
  match matchEnds (search_window text target_position) 0 with
  | [] => find_nearest_whitespace text target_position
  | e :: rest =>
    search_start target_position +
      pickClosest (target_position - search_start target_position) e rest

theorem spaceRun_le : ∀ l : List Char, spaceRun l ≤ l.length
  | [] => Nat.le_refl _
  | c :: l => by
    simp only [spaceRun, List.length_cons]
    split
    · exact Nat.succ_le_succ (spaceRun_le l)
    · exact Nat.zero_le _

theorem matchEnds_mem_bounds (w : List Char) (i : Nat) :
    ∀ e ∈ matchEnds w i, i + 2 ≤ e ∧ e ≤ i + w.length := by
  induction w, i using matchEnds.induct with
  | case1 i =>
    intro e he
    simp [matchEnds] at he
  | case2 c rest i h ih =>
    intro e he
    rw [matchEnds, if_pos h] at he
    rcases List.mem_cons.mp he with rfl | hmem
    · have hr : 0 < spaceRun rest := by
        simpa using (Bool.and_eq_true _ _).mp h |>.2
      have hle := spaceRun_le rest
      simp only [List.length_cons]
      omega
    · have := ih e hmem
      have hle := spaceRun_le rest
      simp only [List.length_drop] at this
      simp only [List.length_cons]
      omega
  | case3 c rest i h ih =>
    intro e he
    rw [matchEnds, if_neg h] at he
    have := ih e he
    simp only [List.length_cons]
    omega

theorem pickClosest_mem (t : Nat) : ∀ (l : List Nat) (b : Nat), pickClosest t b l ∈ b :: l
  | [], b => by simp [pickClosest]
  | e :: rest, b => by
    rw [pickClosest]
    split
    · exact List.mem_cons_of_mem _ (pickClosest_mem t rest e)
    · have hmem := pickClosest_mem t rest b
      rw [List.mem_cons] at hmem
      rcases hmem with heq | hmem
      · rw [heq]
        exact List.mem_cons_self _ _
      · exact List.mem_cons_of_mem _ (List.mem_cons_of_mem _ hmem)

theorem find_nearest_whitespace_bounds (text : List Char) (target : Nat)
    (h : target < text.length) :
    target - 999 ≤ find_nearest_whitespace text target ∧
    find_nearest_whitespace text target ≤ text.length := by
  rw [find_nearest_whitespace]
  split
  case h_1 i heq =>
    have hmem := List.mem_of_find?_eq_some heq
    obtain ⟨j, hj, rfl⟩ := List.mem_range'.mp hmem
    omega
  case h_2 heq =>
    split
    case h_1 i heq2 =>
      have hmem := List.mem_of_find?_eq_some heq2
      rw [List.mem_reverse] at hmem
      obtain ⟨j, hj, rfl⟩ := List.mem_range'.mp hmem
      omega
    case h_2 heq2 => omega

theorem search_window_length (text : List Char) (target : Nat) :
    (search_window text target).length =
      search_end text target - search_start target := by
  simp only [search_window, List.length_take, List.length_drop]
  have hse : search_end text target = min text.length (target + SEARCH_WINDOW) := rfl
  omega

theorem find_split_point_bounds (text : List Char) (target : Nat)
    (h : target < text.length) (h2 : 1000 ≤ target) :
    target - 999 ≤ find_split_point text target ∧
    find_split_point text target ≤ text.length := by
  cases hm : matchEnds (search_window text target) 0 with
  | nil =>
    have hfs : find_split_point text target = find_nearest_whitespace text target := by
      rw [find_split_point.eq_def, hm]
    rw [hfs]
    exact find_nearest_whitespace_bounds text target h
  | cons e rest =>
    have hfs : find_split_point text target =
        search_start target + pickClosest (target - search_start target) e rest := by
      rw [find_split_point.eq_def, hm]
    rw [hfs]
    have hmem : pickClosest (target - search_start target) e rest ∈
        matchEnds (search_window text target) 0 := by
      rw [hm]
      exact pickClosest_mem _ rest e
    have hb := matchEnds_mem_bounds _ 0 _ hmem
    rw [search_window_length text target] at hb
    have hss : search_start target = target - SEARCH_WINDOW := rfl
    have hse : search_end text target = min text.length (target + SEARCH_WINDOW) := rfl
    have hsw : SEARCH_WINDOW = 500 := rfl
    omega

/-- The main loop of `TextChunker.chunk_text` for texts longer than
`CHUNK_SIZE`: `current_position` advances to each split point until the
remaining tail fits in one chunk.  `text[a:b]` is `(text.drop a).take (b - a)`
and `text[a:]` is `text.drop a`. -/
def chunkLoop (text : List Char) (current_position chunk_id : Nat) : List Chunk :=
  if h : current_position < text.length then
    if text.length ≤ current_position + CHUNK_SIZE then
      [⟨chunk_id, text.drop current_position, (text.drop current_position).length,
        current_position, text.length⟩]
    else
      let split_point := find_split_point text (current_position + CHUNK_SIZE)
      ⟨chunk_id, (text.drop current_position).take (split_point - current_position),
        ((text.drop current_position).take (split_point - current_position)).length,
        current_position, split_point⟩ :: chunkLoop text split_point (chunk_id + 1)
  else []
termination_by text.length - current_position
decreasing_by
  have hb := find_split_point_bounds text (current_position + CHUNK_SIZE)
    (by omega) (by simp [CHUNK_SIZE])
  have hcs : CHUNK_SIZE = 30000 := rfl
  omega

/-- `TextChunker.chunk_text`. -/
def chunk_text (text : List Char) : List Chunk :=
  if text.length ≤ CHUNK_SIZE then
    [⟨0, text, text.length, 0, text.length⟩]
  else
    chunkLoop text 0 0

/-- The chunk list is contiguous starting at position `s`: the first chunk
starts at `s` and each chunk ends where the next one starts. -/
def chunksChained (s : Nat) : List Chunk → Bool
  | [] => true
  | c :: rest => (c.start_position == s) && chunksChained c.end_position rest

/-- End position of the last chunk, `s` for the empty list. -/
def finalEnd (s : Nat) : List Chunk → Nat
  | [] => s
  | c :: rest => finalEnd c.end_position rest

theorem chunkLoop_nil (text : List Char) (pos cid : Nat)
    (h : ¬ pos < text.length) : chunkLoop text pos cid = [] := by
  rw [chunkLoop, dif_neg h]

theorem chunkLoop_last (text : List Char) (pos cid : Nat)
    (h : pos < text.length) (hlast : text.length ≤ pos + CHUNK_SIZE) :
    chunkLoop text pos cid =
      [⟨cid, text.drop pos, (text.drop pos).length, pos, text.length⟩] := by
  rw [chunkLoop, dif_pos h, if_pos hlast]

theorem chunkLoop_step (text : List Char) (pos cid : Nat)
    (h : pos < text.length) (hlast : ¬ text.length ≤ pos + CHUNK_SIZE) :
    chunkLoop text pos cid =
      ⟨cid,
        (text.drop pos).take (find_split_point text (pos + CHUNK_SIZE) - pos),
        ((text.drop pos).take (find_split_point text (pos + CHUNK_SIZE) - pos)).length,
        pos, find_split_point text (pos + CHUNK_SIZE)⟩ ::
      chunkLoop text (find_split_point text (pos + CHUNK_SIZE)) (cid + 1) := by
  rw [chunkLoop, dif_pos h, if_neg hlast]

theorem chunksChained_cons_mk (s i : Nat) (t : List Char) (cc a b : Nat)
    (rest : List Chunk) :
    chunksChained s (⟨i, t, cc, a, b⟩ :: rest) =
      ((a == s) && chunksChained b rest) := rfl

theorem finalEnd_cons_mk (s i : Nat) (t : List Char) (cc a b : Nat)
    (rest : List Chunk) :
    finalEnd s (⟨i, t, cc, a, b⟩ :: rest) = finalEnd b rest := rfl

theorem chunkLoop_spec (text : List Char) : ∀ (fuel pos cid : Nat),
    text.length - pos ≤ fuel → pos < text.length →
    chunkLoop text pos cid ≠ [] ∧
    chunksChained pos (chunkLoop text pos cid) = true ∧
    finalEnd pos (chunkLoop text pos cid) = text.length ∧
    (∀ c ∈ chunkLoop text pos cid, c.char_count = c.text.length) := by
  intro fuel
  induction fuel with
  | zero =>
    intro pos cid hf h
    omega
  | succ n ih =>
    intro pos cid hf h
    by_cases hlast : text.length ≤ pos + CHUNK_SIZE
    · rw [chunkLoop_last text pos cid h hlast]
      refine ⟨by simp, ?_, ?_, ?_⟩
      · rw [chunksChained_cons_mk, beq_self_eq_true, Bool.true_and, chunksChained]
      · rw [finalEnd_cons_mk, finalEnd]
      · intro c hc
        rw [List.mem_singleton] at hc
        rw [hc]
    · have hb := find_split_point_bounds text (pos + CHUNK_SIZE)
        (by omega) (by simp [CHUNK_SIZE])
      have hcs : CHUNK_SIZE = 30000 := rfl
      rw [chunkLoop_step text pos cid h hlast]
      by_cases hspl : find_split_point text (pos + CHUNK_SIZE) < text.length
      · have ihs := ih (find_split_point text (pos + CHUNK_SIZE)) (cid + 1)
          (by omega) hspl
        refine ⟨by simp, ?_, ?_, ?_⟩
        · rw [chunksChained_cons_mk, beq_self_eq_true, Bool.true_and]
          exact ihs.2.1
        · rw [finalEnd_cons_mk]
          exact ihs.2.2.1
        · intro c hc
          rw [List.mem_cons] at hc
          rcases hc with hc | hc
          · rw [hc]
          · exact ihs.2.2.2 c hc
      · have hsple : find_split_point text (pos + CHUNK_SIZE) = text.length := by
          omega
        rw [hsple, chunkLoop_nil text text.length (cid + 1) (by omega)]
        refine ⟨by simp, ?_, ?_, ?_⟩
        · rw [chunksChained_cons_mk, beq_self_eq_true, Bool.true_and, chunksChained]
        · rw [finalEnd_cons_mk, finalEnd]
        · intro c hc
          rw [List.mem_singleton] at hc
          rw [hc]

/-- C1: for every input text, `TextChunker.chunk_text` returns a non-empty
ordered list of chunks whose `[start_position, end_position)` ranges exactly
partition `[0, len(text))` with no gaps or overlaps — the first chunk starts
at 0, each chunk ends where the next starts, the last chunk ends at
`len(text)` — every chunk's `char_count` equals the length of its `text`,
and any text of length at most `CHUNK_SIZE` (30000) yields exactly one
chunk. -/
theorem chunk_text_partition (text : List Char) :
    chunk_text text ≠ [] ∧
    chunksChained 0 (chunk_text text) = true ∧
    finalEnd 0 (chunk_text text) = text.length ∧
    (∀ c ∈ chunk_text text, c.char_count = c.text.length) ∧
    (text.length ≤ CHUNK_SIZE → (chunk_text text).length = 1) := by
  by_cases hle : text.length ≤ CHUNK_SIZE
  · rw [chunk_text, if_pos hle]
    refine ⟨by simp, ?_, ?_, ?_, fun _ => rfl⟩
    · rw [chunksChained_cons_mk, beq_self_eq_true, Bool.true_and, chunksChained]
    · rw [finalEnd_cons_mk, finalEnd]
    · intro c hc
      rw [List.mem_singleton] at hc
      rw [hc]
  · rw [chunk_text, if_neg hle]
    have hcs : CHUNK_SIZE = 30000 := rfl
    have h0 : 0 < text.length := by omega
    have hs := chunkLoop_spec text text.length 0 0 (by omega) h0
    exact ⟨hs.1, hs.2.1, hs.2.2.1, hs.2.2.2, fun hc => absurd hc hle⟩

/-- Witness for C1 at the concrete two-character text `"ab"`. -/
theorem chunk_text_partition_witness :
    (['a', 'b'] : List Char).length ≤ CHUNK_SIZE ∧
    (chunk_text ['a', 'b']).length = 1 :=
  ⟨by decide, (chunk_text_partition ['a', 'b']).2.2.2.2 (by decide)⟩

/-- C10: on the empty input string `TextChunker.chunk_text` returns exactly
one chunk, with `chunk_id` 0, empty text, `char_count` 0 and
`start_position = end_position = 0`: the chunk list is never empty, even
for empty input. -/
theorem chunk_text_empty_input :
    chunk_text [] = [⟨0, [], 0, 0, 0⟩] := rfl

end TextChunker

/-! ## `src/models.py`

Dataclass construction runs `__post_init__`, which can raise `ValueError`;
each dataclass is embedded as a plain structure plus a `make` function
returning `Except String` that performs exactly the `__post_init__`
checks. -/

/-- A value stored in `AnalysisResult.custom_checks`
(`Union[bool, str, List[str], None]`). -/
inductive CheckValue where
  | vNone
  | vBool (b : Bool)
  | vStr (s : String)
  | vList (l : List String)
deriving Repr, DecidableEq

structure CheckAttribute where
  question : String
  answer_type : String
  categories : Option (List String)
  definition : Option String
deriving Repr, DecidableEq

/-- `CheckAttribute.__post_init__`.  Python truthiness: `not self.question`
is `question = ""`, `not self.question.strip()` is `pyStrip question = ""`,
and `not self.categories` holds for `None` and for the empty list. -/
def CheckAttribute.make (question answer_type : String)
    (categories : Option (List String)) (definition : Option String) :
    Except String CheckAttribute :=
  if answer_type ≠ "boolean" ∧ answer_type ≠ "categorical" ∧
      answer_type ≠ "multi_categorical" then
    Except.error ("answer_type muss 'boolean', 'categorical' oder 'multi_categorical' sein, nicht '" ++ answer_type ++ "'")
  else if question = "" ∨ pyStrip question = "" then
    Except.error "question darf nicht leer sein"
  else if (answer_type = "categorical" ∨ answer_type = "multi_categorical") ∧
      (categories = none ∨ categories = some []) then
    Except.error ("categories muss für answer_type '" ++ answer_type ++ "' angegeben werden")
  else if (answer_type = "categorical" ∨ answer_type = "multi_categorical") ∧
      (categories.getD []).length < 2 then
    Except.error "categories muss mindestens 2 Kategorien enthalten"
  else if answer_type = "boolean" ∧ categories ≠ none then
    Except.error "categories sollte für answer_type 'boolean' None sein"
  else
    Except.ok ⟨question, answer_type, categories, definition⟩

structure AnalysisResult where
  paraphrase : String
  sentiment : String
  sentiment_reason : String
  keywords : List String
  custom_checks : List (String × CheckValue)
  custom_checks_reasons : List (String × String)
  error : Option String
  prompt_tokens : Nat
  completion_tokens : Nat
  total_tokens : Nat
deriving Repr, DecidableEq

/-- `AnalysisResult.__post_init__`: a `None` `custom_checks_reasons` is
replaced by the empty dict, the sentiment must be one of the three valid
values and the keyword count must lie in `[2, 4]`. -/
def AnalysisResult.make (paraphrase sentiment sentiment_reason : String)
    (keywords : List String) (custom_checks : List (String × CheckValue))
    (custom_checks_reasons : Option (List (String × String)))
    (error : Option String)
    (prompt_tokens completion_tokens total_tokens : Nat) :
    Except String AnalysisResult :=
  if sentiment ≠ "positiv" ∧ sentiment ≠ "negativ" ∧ sentiment ≠ "gemischt" then
    Except.error ("sentiment muss einer von ['positiv', 'negativ', 'gemischt'] sein, nicht '" ++ sentiment ++ "'")
  else if ¬ (2 ≤ keywords.length ∧ keywords.length ≤ 4) then
    Except.error "keywords muss 2-4 Elemente enthalten"
  else
    Except.ok ⟨paraphrase, sentiment, sentiment_reason, keywords, custom_checks,
      custom_checks_reasons.getD [], error, prompt_tokens, completion_tokens,
      total_tokens⟩

/-- A value stored in `MergedResult.custom_checks`
(`Union[str, bool, List[str]]`, with `None` also possible). -/
inductive MergedCheck where
  | mNone
  | mBool (b : Bool)
  | mStr (s : String)
  | mList (l : List CheckValue)
deriving Repr, DecidableEq

structure MergedResult where
  filename : String
  paraphrase : String
  sentiment : Int
  sentiment_reason : String
  keywords : List String
  custom_checks : List (String × MergedCheck)
  custom_checks_reasons : List (String × String)
  keyword_category : String
  chunk_count : Nat
  error : Option String
deriving Repr, DecidableEq

/-- `MergedResult.__post_init__`: the sentiment must be -1, 0 or 1 and the
chunk count at least 1. -/
def MergedResult.make (filename paraphrase : String) (sentiment : Int)
    (sentiment_reason : String) (keywords : List String)
    (custom_checks : List (String × MergedCheck))
    (custom_checks_reasons : List (String × String))
    (keyword_category : String) (chunk_count : Nat)
    (error : Option String) : Except String MergedResult :=
  if sentiment ≠ -1 ∧ sentiment ≠ 0 ∧ sentiment ≠ 1 then
    Except.error "sentiment muss -1, 0 oder 1 sein"
  else if chunk_count < 1 then
    Except.error "chunk_count muss >= 1 sein"
  else
    Except.ok ⟨filename, paraphrase, sentiment, sentiment_reason, keywords,
      custom_checks, custom_checks_reasons, keyword_category, chunk_count, error⟩

/-- C9 counterexample: the claim says a `categories` list with duplicate
entries is rejected at construction time, but
`CheckAttribute("q", "categorical", ["A", "A"])` constructs successfully —
`__post_init__` checks only `len(categories) >= 2`, never distinctness. -/
theorem check_attribute_duplicates_accepted :
    CheckAttribute.make "q" "categorical" (some ["A", "A"]) none =
      Except.ok ⟨"q", "categorical", some ["A", "A"], none⟩ := rfl

/-- C9 (amended): constructing a `CheckAttribute` succeeds iff the question
contains a non-whitespace character, the answer type is one of
boolean/categorical/multi_categorical, `categories` is a list of at least 2
(not necessarily distinct) strings when the answer type is categorical or
multi_categorical, and `categories` is absent when the answer type is
boolean. -/
theorem check_attribute_make_iff (q t : String) (c : Option (List String))
    (d : Option String) :
    (∃ a, CheckAttribute.make q t c d = Except.ok a) ↔
      ((t = "boolean" ∨ t = "categorical" ∨ t = "multi_categorical") ∧
       pyStrip q ≠ "" ∧
       ((t = "categorical" ∨ t = "multi_categorical") →
         ∃ l, c = some l ∧ 2 ≤ l.length) ∧
       (t = "boolean" → c = none)) := by
  constructor
  · rintro ⟨a, ha⟩
    rw [CheckAttribute.make] at ha
    split_ifs at ha with h1 h2 h3 h4 h5
    refine ⟨by tauto, ?_, ?_, by tauto⟩
    · intro hq
      exact h2 (Or.inr hq)
    · intro ht
      rcases hc : c with _ | l
      · exact absurd ⟨ht, Or.inl hc⟩ h3
      · refine ⟨l, rfl, ?_⟩
        by_contra hlen
        rw [hc] at h4
        exact h4 ⟨ht, by simpa using Nat.lt_of_not_le hlen⟩
  · rintro ⟨ht, hq, hc, hb⟩
    rw [CheckAttribute.make]
    split_ifs with h1 h2 h3 h4 h5
    · exact absurd ht (by tauto)
    · rcases h2 with h2 | h2
      · exact absurd (by rw [h2]; rfl) hq
      · exact absurd h2 hq
    · obtain ⟨l, hl, hlen⟩ := hc h3.1
      rcases h3.2 with h | h <;> rw [hl] at h
      · exact absurd h (by simp)
      · have : l = [] := by injection h
        rw [this] at hlen
        exact absurd hlen (by decide)
    · obtain ⟨l, hl, hlen⟩ := hc h4.1
      rw [hl] at h4
      simp only [Option.getD] at h4
      omega
    · exact absurd (hb h5.1) h5.2
    · exact ⟨_, rfl⟩

/-- Witness for C9's amended characterization at a concrete valid
attribute. -/
theorem check_attribute_make_iff_witness :
    ∃ a, CheckAttribute.make "Frage" "boolean" none none = Except.ok a :=
  (check_attribute_make_iff "Frage" "boolean" none none).mpr
    ⟨Or.inl rfl, by decide, fun h => by simp at h, fun _ => rfl⟩

/-! ## `src/result_merger.py` -/

/-- While `len(keywords) < 2`, append the sentinel `"unbekannt"` (used both
by `ResultMerger._merge_keywords` and by `LLMAnalyzer._parse_llm_response`);
the while loop appends twice to an empty list, once to a singleton, and
leaves longer lists unchanged. -/
def padKeywords : List String → List String
  | [] => ["unbekannt", "unbekannt"]
  | [k] => [k, "unbekannt"]
  | keywords => keywords

theorem find_replace_self {v : Type} (k : String) (x : v) :
    ∀ d : List (String × v), d.any (fun p => p.1 = k) = true →
      (d.map (fun p => if p.1 = k then (k, x) else p)).find?
        (fun p => p.1 = k) = some (k, x)
  | [], h => by simp at h
  | p :: rest, h => by
    rw [List.map_cons]
    by_cases hp : p.1 = k
    · rw [if_pos hp]
      rw [List.find?_cons_of_pos _ (by simp)]
    · rw [if_neg hp]
      rw [List.find?_cons_of_neg _ (by simp [hp])]
      apply find_replace_self k x rest
      rw [List.any_cons] at h
      simpa [hp] using h

theorem find_replace_ne {v : Type} (k q : String) (x : v) (hne : q ≠ k) :
    ∀ d : List (String × v),
      (d.map (fun p => if p.1 = k then (k, x) else p)).find?
        (fun p => p.1 = q) = d.find? (fun p => p.1 = q)
  | [] => rfl
  | p :: rest => by
    rw [List.map_cons]
    by_cases hp : p.1 = k
    · rw [if_pos hp]
      rw [List.find?_cons_of_neg _ (by simp [Ne.symm hne]),
        List.find?_cons_of_neg _ (by rw [hp]; simp [Ne.symm hne]),
        find_replace_ne k q x hne rest]
    · rw [if_neg hp]
      by_cases hq : p.1 = q
      · rw [List.find?_cons_of_pos _ (by simp [hq]),
          List.find?_cons_of_pos _ (by simp [hq])]
      · rw [List.find?_cons_of_neg _ (by simp [hq]),
          List.find?_cons_of_neg _ (by simp [hq]),
          find_replace_ne k q x hne rest]

theorem pyDictGet_pyDictSet_self {v : Type} (d : List (String × v)) (k : String)
    (x : v) : pyDictGet (pyDictSet d k x) k = some x := by
  rw [pyDictSet]
  split
  case isTrue hany =>
    rw [pyDictGet, find_replace_self k x d hany]
    rfl
  case isFalse hany =>
    rw [pyDictGet, List.find?_append]
    have hnone : d.find? (fun p => p.1 = k) = none := by
      rw [List.find?_eq_none]
      intro p hp hpk
      exact hany (List.any_eq_true.mpr ⟨p, hp, hpk⟩)
    rw [hnone]
    simp [List.find?]

theorem pyDictGet_pyDictSet_ne {v : Type} (d : List (String × v)) (k q : String)
    (x : v) (hne : q ≠ k) : pyDictGet (pyDictSet d k x) q = pyDictGet d q := by
  rw [pyDictSet]
  split
  case isTrue hany =>
    rw [pyDictGet, find_replace_ne k q x hne d]
    rfl
  case isFalse hany =>
    rw [pyDictGet, List.find?_append]
    have htail : ([(k, x)] : List (String × v)).find? (fun p => p.1 = q) = none := by
      rw [List.find?_cons_of_neg _ (by simp [Ne.symm hne])]
      rfl
    rw [htail, pyDictGet]
    cases d.find? (fun p => p.1 = q) <;> rfl

namespace ResultMerger

/-- `ResultMerger.SENTIMENT_MAP` as a partial map; a key outside the map
raises `KeyError`. -/
def SENTIMENT_MAP (s : String) : Option Int :=
  if s = "positiv" then some 1
  else if s = "gemischt" then some 0
  else if s = "negativ" then some (-1)
  else none

/-- `ResultMerger._merge_paraphrases`: join the truthy (non-empty)
paraphrases with `" | "`. -/
def merge_paraphrases (results : List AnalysisResult) : String :=
  String.intercalate " | " ((results.map (fun r => r.paraphrase)).filter (fun p => p ≠ ""))

/-- The list comprehension `[SENTIMENT_MAP[r.sentiment] for r in results]`:
evaluates left to right and raises `KeyError` at the first invalid
sentiment. -/
def mapSentiments : List AnalysisResult → Except String (List Int)
  | [] => Except.ok []
  | r :: rest =>
    match SENTIMENT_MAP r.sentiment with
    | some v => (mapSentiments rest).map (fun l => v :: l)
    | none => Except.error ("KeyError: '" ++ r.sentiment ++ "'")

/-- Mean computation and threshold classification of
`ResultMerger._merge_sentiments`, applied to the numeric sentiment list. -/
def classifySum (numeric_sentiments : List Int) : Except String Int :=
  if numeric_sentiments.length = 0 then
    Except.error "ZeroDivisionError: division by zero"
  else
    if ((numeric_sentiments.sum : Int) : ℚ) / (numeric_sentiments.length : ℚ) > 1 / 2 then
      Except.ok 1
    else if ((numeric_sentiments.sum : Int) : ℚ) / (numeric_sentiments.length : ℚ) < -(1 / 2) then
      Except.ok (-1)
    else
      Except.ok 0

/-- `ResultMerger._merge_sentiments`: average the mapped sentiment values
and classify with strict thresholds at ±0.5.  Python computes the mean in
floating point; it is modelled as the exact rational mean, with which the
two strict comparisons agree for any realistic chunk count.  An empty input
raises `ZeroDivisionError`. -/
def merge_sentiments (results : List AnalysisResult) : Except String Int :=
  match mapSentiments results with
  | Except.error e => Except.error e
  | Except.ok numeric_sentiments => classifySum numeric_sentiments

/-- `ResultMerger._merge_sentiment_reasons`. -/
def merge_sentiment_reasons (results : List AnalysisResult) : String :=
  String.intercalate " | " ((results.map (fun r => r.sentiment_reason)).filter (fun p => p ≠ ""))

/-- `ResultMerger._merge_keywords`: pool all keywords, take the 4 most
frequent (`Counter.most_common` sorts by count descending, stably, over the
keys in first-seen order) and pad with `"unbekannt"` to at least 2. -/
def merge_keywords (results : List AnalysisResult) : List String :=
  let all_keywords := results.flatMap (fun r => r.keywords)
  let most_common := ((pyDedup all_keywords).mergeSort
    (fun a b => decide (all_keywords.count b ≤ all_keywords.count a))).take 4
  padKeywords most_common

/-- Flattening step of the `multi_categorical` branch of
`_merge_custom_checks`: a `None` contributes nothing, a list contributes
its elements, any other value is appended when it differs from `""` (in
python a boolean never equals `""`, so only the empty string is dropped). -/
def multiCatParts : CheckValue → List CheckValue
  | CheckValue.vNone => []
  | CheckValue.vList l => l.map CheckValue.vStr
  | CheckValue.vStr s => if s = "" then [] else [CheckValue.vStr s]
  | CheckValue.vBool b => [CheckValue.vBool b]

/-- `", ".join(values)` raises `TypeError` unless every element is a
string. -/
def joinStrings : List CheckValue → Option (List String)
  | [] => some []
  | CheckValue.vStr s :: rest => (joinStrings rest).map (fun l => s :: l)
  | _ => none

/-- Body of the per-attribute loop of `ResultMerger._merge_custom_checks`:
collect the values reported for the attribute's question (a chunk counts
as reporting iff the question is a key of its `custom_checks`), then reduce
according to the attribute's answer type.  An attribute with an invalid
answer type assigns nothing. -/
def mergeCheckUpdate (results : List AnalysisResult)
    (merged_checks : List (String × MergedCheck)) (attr : CheckAttribute) :
    Except String (List (String × MergedCheck)) :=
  let question := attr.question
  let values := results.filterMap (fun r => pyDictGet r.custom_checks question)
  if values = [] then
    Except.ok (pyDictSet merged_checks question MergedCheck.mNone)
  else if attr.answer_type = "boolean" then
    Except.ok (pyDictSet merged_checks question
      (MergedCheck.mBool (values.any (fun v => v == CheckValue.vBool true))))
  else if attr.answer_type = "multi_categorical" then
    let all_categories := values.flatMap multiCatParts
    if all_categories ≠ [] then
      Except.ok (pyDictSet merged_checks question
        (MergedCheck.mList (pyDedup all_categories)))
    else
      Except.ok (pyDictSet merged_checks question MergedCheck.mNone)
  else if attr.answer_type = "categorical" then
    let non_null_values := values.filter
      (fun v => v ≠ CheckValue.vNone ∧ v ≠ CheckValue.vStr "")
    if non_null_values = [] then
      Except.ok (pyDictSet merged_checks question MergedCheck.mNone)
    else
      match joinStrings (pyDedup non_null_values) with
      | some unique_values =>
        Except.ok (pyDictSet merged_checks question
          (MergedCheck.mStr (String.intercalate ", " unique_values)))
      | none => Except.error "TypeError: sequence item: expected str instance"
  else
    Except.ok merged_checks

/-- `ResultMerger._merge_custom_checks`. -/
def merge_custom_checks (results : List AnalysisResult)
    (check_attributes : List CheckAttribute) :
    Except String (List (String × MergedCheck)) :=
  check_attributes.foldlM (mergeCheckUpdate results) []

/-- `ResultMerger._merge_custom_checks_reasons`: for each attribute join the
truthy reasons reported for its question with `" | "`, defaulting to
`""`. -/
def merge_custom_checks_reasons (results : List AnalysisResult)
    (check_attributes : List CheckAttribute) : List (String × String) :=
  check_attributes.foldl
    (fun merged_reasons attr =>
      let reasons := (results.filterMap
        (fun r => pyDictGet r.custom_checks_reasons attr.question)).filter
          (fun s => s ≠ "")
      if reasons ≠ [] then
        pyDictSet merged_reasons attr.question (String.intercalate " | " reasons)
      else
        pyDictSet merged_reasons attr.question "")
    []

/-- `ResultMerger.merge_results`.  The empty-input branch constructs its
error `MergedResult` outside the `try` block, so a `ValueError` raised by
`MergedResult.__post_init__` there propagates to the caller; inside the
`try` block any exception is caught and turned into an error result. -/
def merge_results (filename : String) (chunk_results : List AnalysisResult)
    (check_attributes : List CheckAttribute) : Except String MergedResult :=
  if chunk_results = [] then
    MergedResult.make filename "" 0 "" [] [] [] "" 0
      (some "Keine Chunk-Ergebnisse verfügbar")
  else
    match (do
      let sentiment ← merge_sentiments chunk_results
      let custom_checks ← merge_custom_checks chunk_results check_attributes
      MergedResult.make filename (merge_paraphrases chunk_results) sentiment
        (merge_sentiment_reasons chunk_results) (merge_keywords chunk_results)
        custom_checks
        (merge_custom_checks_reasons chunk_results check_attributes) ""
        chunk_results.length none : Except String MergedResult) with
    | Except.ok merged => Except.ok merged
    | Except.error e =>
      MergedResult.make filename "" 0 "" [] [] [] "" chunk_results.length
        (some ("Fehler beim Zusammenführen von Ergebnissen für " ++ filename ++ ": " ++ e))

/-- C2 (documents the code bug): merging an empty list of chunk results
does not return an error-tagged `MergedResult` — the empty-input branch
constructs `MergedResult(..., chunk_count=0, error=...)` outside the `try`
block and `MergedResult.__post_init__` rejects `chunk_count < 1`, so the
call raises `ValueError` to the caller for every filename and schema. -/
theorem merge_results_empty_raises (filename : String)
    (check_attributes : List CheckAttribute) :
    merge_results filename [] check_attributes =
      Except.error "chunk_count muss >= 1 sein" := rfl

/-- Sentiment scoring exactly as the spec words it (positive one, mixed
zero, negative minus one; the code uses the German value strings). -/
def specSentimentScore (s : String) : Int :=
  if s = "positiv" then 1 else if s = "negativ" then -1 else 0

/-- Mean classification exactly as the spec words it: mean above 0.5 is
positive, mean below -0.5 is negative, otherwise mixed. -/
def specClassifyMean (mean : ℚ) : Int :=
  if mean > 1 / 2 then 1 else if mean < -(1 / 2) then -1 else 0

/-- A successful chunk result carrying the given sentiment and defaults
elsewhere. -/
def sres (s : String) : AnalysisResult :=
  ⟨"", s, "", ["k1", "k2"], [], [], none, 0, 0, 0⟩

theorem mapSentiments_valid (results : List AnalysisResult)
    (hv : ∀ r ∈ results, r.sentiment = "positiv" ∨ r.sentiment = "gemischt" ∨
      r.sentiment = "negativ") :
    mapSentiments results =
      Except.ok (results.map (fun r => specSentimentScore r.sentiment)) := by
  induction results with
  | nil => rfl
  | cons r rest ih =>
    have hr := hv r (List.mem_cons_self r rest)
    have hrest := ih (fun x hx => hv x (List.mem_cons_of_mem r hx))
    rw [mapSentiments, hrest, List.map_cons]
    rcases hr with h | h | h <;> rw [h] <;> rfl

theorem merge_sentiments_of_mapped (results : List AnalysisResult)
    (nums : List Int) (h : mapSentiments results = Except.ok nums) :
    merge_sentiments results = classifySum nums := by
  rw [merge_sentiments, h]

theorem specSentimentScore_positiv : specSentimentScore "positiv" = 1 := by decide

theorem specSentimentScore_negativ : specSentimentScore "negativ" = -1 := by decide

theorem specSentimentScore_gemischt : specSentimentScore "gemischt" = 0 := by decide

theorem merge_sentiments_spec_general (results : List AnalysisResult)
    (hne : results ≠ [])
    (hv : ∀ r ∈ results, r.sentiment = "positiv" ∨ r.sentiment = "gemischt" ∨
      r.sentiment = "negativ") :
    merge_sentiments results = Except.ok (specClassifyMean
      ((((results.map (fun r => specSentimentScore r.sentiment)).sum : Int) : ℚ) /
        (results.length : ℚ))) := by
  rw [merge_sentiments_of_mapped results _ (mapSentiments_valid results hv)]
  have hlen : (results.map (fun r => specSentimentScore r.sentiment)).length =
      results.length := List.length_map _ _
  have hne0 : ¬ ((results.map (fun r => specSentimentScore r.sentiment)).length = 0) := by
    rw [hlen]
    intro h0
    exact hne (List.length_eq_zero.mp h0)
  rw [classifySum, if_neg hne0, specClassifyMean, hlen]
  split_ifs <;> rfl

/-- C3: the merged sentiment is the classification of the arithmetic mean
of the per-chunk sentiment scores (positive 1, mixed 0, negative -1), with
strict thresholds: mean above 0.5 gives 1, below -0.5 gives -1, otherwise
0.  In particular three positives give 1, two negatives give -1, one
positive and one negative give 0, two positives and one negative (mean 1/3)
give 0, and means of exactly 0.5 and exactly -0.5 give 0. -/
theorem merge_sentiments_mean_classification :
    (∀ (results : List AnalysisResult), results ≠ [] →
      (∀ r ∈ results, r.sentiment = "positiv" ∨ r.sentiment = "gemischt" ∨
        r.sentiment = "negativ") →
      merge_sentiments results = Except.ok (specClassifyMean
        ((((results.map (fun r => specSentimentScore r.sentiment)).sum : Int) : ℚ) /
          (results.length : ℚ)))) ∧
    merge_sentiments [sres "positiv", sres "positiv", sres "positiv"] = Except.ok 1 ∧
    merge_sentiments [sres "negativ", sres "negativ"] = Except.ok (-1) ∧
    merge_sentiments [sres "positiv", sres "negativ"] = Except.ok 0 ∧
    merge_sentiments [sres "positiv", sres "positiv", sres "negativ"] = Except.ok 0 ∧
    merge_sentiments [sres "positiv", sres "positiv", sres "gemischt", sres "gemischt"] =
      Except.ok 0 ∧
    merge_sentiments [sres "negativ", sres "negativ", sres "gemischt", sres "gemischt"] =
      Except.ok 0 := by
  refine ⟨merge_sentiments_spec_general, ?_, ?_, ?_, ?_, ?_, ?_⟩
  all_goals rw [merge_sentiments_spec_general _ (by simp) (by decide)]
  all_goals norm_num [specClassifyMean, sres, specSentimentScore_positiv,
    specSentimentScore_negativ, specSentimentScore_gemischt]

/-- The value the boolean branch of `_merge_custom_checks` stores for a
question: `None` when no chunk has the question as a key, else the OR over
the values that are the boolean `True`. -/
def boolMergeValue (results : List AnalysisResult) (question : String) :
    MergedCheck :=
  if results.filterMap (fun r => pyDictGet r.custom_checks question) = [] then
    MergedCheck.mNone
  else
    MergedCheck.mBool ((results.filterMap
      (fun r => pyDictGet r.custom_checks question)).any
        (fun v => v == CheckValue.vBool true))

theorem mergeCheckUpdate_boolean (results : List AnalysisResult)
    (d : List (String × MergedCheck)) (attr : CheckAttribute)
    (hb : attr.answer_type = "boolean") :
    mergeCheckUpdate results d attr =
      Except.ok (pyDictSet d attr.question
        (boolMergeValue results attr.question)) := by
  simp only [mergeCheckUpdate, boolMergeValue]
  by_cases hv : results.filterMap (fun r => pyDictGet r.custom_checks attr.question) = []
  · rw [if_pos hv, if_pos hv]
  · rw [if_neg hv, if_neg hv, if_pos hb]

theorem mergeCheckUpdate_preserves (results : List AnalysisResult)
    (d d2 : List (String × MergedCheck)) (attr : CheckAttribute) (q : String)
    (hq : attr.question ≠ q)
    (h : mergeCheckUpdate results d attr = Except.ok d2) :
    pyDictGet d2 q = pyDictGet d q := by
  simp only [mergeCheckUpdate] at h
  split_ifs at h with h1 h2 h3 h4 h5
  · rw [Except.ok.injEq] at h
    rw [← h, pyDictGet_pyDictSet_ne _ _ _ _ (Ne.symm hq)]
  · rw [Except.ok.injEq] at h
    rw [← h, pyDictGet_pyDictSet_ne _ _ _ _ (Ne.symm hq)]
  · rw [Except.ok.injEq] at h
    rw [← h, pyDictGet_pyDictSet_ne _ _ _ _ (Ne.symm hq)]
  · rw [Except.ok.injEq] at h
    rw [← h, pyDictGet_pyDictSet_ne _ _ _ _ (Ne.symm hq)]
  · rw [Except.ok.injEq] at h
    rw [← h, pyDictGet_pyDictSet_ne _ _ _ _ (Ne.symm hq)]
  · cases hj : joinStrings (pyDedup ((results.filterMap
        (fun r => pyDictGet r.custom_checks attr.question)).filter
          (fun v => v ≠ CheckValue.vNone ∧ v ≠ CheckValue.vStr ""))) with
    | none =>
      rw [hj] at h
      exact absurd h (by simp)
    | some unique_values =>
      rw [hj, Except.ok.injEq] at h
      rw [← h, pyDictGet_pyDictSet_ne _ _ _ _ (Ne.symm hq)]
  · rw [Except.ok.injEq] at h
    rw [← h]

theorem foldl_preserves_other (results : List AnalysisResult) (q : String) :
    ∀ (l : List CheckAttribute) (dA dB : List (String × MergedCheck)),
      (∀ x ∈ l, x.question ≠ q) →
      l.foldlM (mergeCheckUpdate results) dA = Except.ok dB →
      pyDictGet dB q = pyDictGet dA q
  | [], dA, dB, hne, h => by
    rw [List.foldlM_nil] at h
    have h2 : (Except.ok dA : Except String (List (String × MergedCheck))) =
      Except.ok dB := h
    rw [Except.ok.injEq] at h2
    rw [h2]
  | a :: rest, dA, dB, hne, h => by
    rw [List.foldlM_cons] at h
    cases hupd : mergeCheckUpdate results dA a with
    | error e =>
      rw [hupd] at h
      have h3 : (Except.error e : Except String (List (String × MergedCheck))) =
        Except.ok dB := h
      exact absurd h3 (by simp)
    | ok d1 =>
      rw [hupd] at h
      have h2 : rest.foldlM (mergeCheckUpdate results) d1 = Except.ok dB := h
      rw [foldl_preserves_other results q rest d1 dB
        (fun x hx => hne x (List.mem_cons_of_mem a hx)) h2]
      exact mergeCheckUpdate_preserves results dA d1 a q
        (hne a (List.mem_cons_self a rest)) hupd

theorem merge_checks_fold_lookup (results : List AnalysisResult)
    (attr : CheckAttribute) (hb : attr.answer_type = "boolean") :
    ∀ (attrs : List CheckAttribute) (d0 d : List (String × MergedCheck)),
      attrs.foldlM (mergeCheckUpdate results) d0 = Except.ok d →
      attr ∈ attrs →
      (∀ a ∈ attrs, a.question = attr.question → a = attr) →
      pyDictGet d attr.question = some (boolMergeValue results attr.question)
  | [], d0, d, h, hmem, huniq => absurd hmem (List.not_mem_nil attr)
  | a :: rest, d0, d, h, hmem, huniq => by
    rw [List.foldlM_cons] at h
    cases hupd : mergeCheckUpdate results d0 a with
    | error e =>
      rw [hupd] at h
      have h3 : (Except.error e : Except String (List (String × MergedCheck))) =
        Except.ok d := h
      exact absurd h3 (by simp)
    | ok d1 =>
      rw [hupd] at h
      have h2 : rest.foldlM (mergeCheckUpdate results) d1 = Except.ok d := h
      by_cases hrest : attr ∈ rest
      · exact merge_checks_fold_lookup results attr hb rest d1 d h2 hrest
          (fun x hx hxq => huniq x (List.mem_cons_of_mem a hx) hxq)
      · have ha : a = attr := by
          rcases List.mem_cons.mp hmem with heq | hmemr
          · exact heq.symm
          · exact absurd hmemr hrest
        have hrestne : ∀ x ∈ rest, x.question ≠ attr.question := by
          intro x hx hxq
          have hxa := huniq x (List.mem_cons_of_mem a hx) hxq
          rw [hxa] at hx
          exact hrest hx
        rw [foldl_preserves_other results attr.question rest d1 d hrestne h2]
        rw [ha, mergeCheckUpdate_boolean results d0 attr hb, Except.ok.injEq] at hupd
        rw [← hupd, pyDictGet_pyDictSet_self]

/-- C4: for a boolean check attribute, the merged value for its question is
`True` iff at least one chunk reports the boolean `True` for it, and it is
`False` whenever every chunk reports a value and each reported value is
null or `False` (null values are ignored, never treated as `False`). -/
theorem merge_custom_checks_boolean_or (results : List AnalysisResult)
    (check_attributes : List CheckAttribute) (attr : CheckAttribute)
    (merged : List (String × MergedCheck))
    (hmem : attr ∈ check_attributes)
    (hb : attr.answer_type = "boolean")
    (huniq : ∀ a ∈ check_attributes, a.question = attr.question → a = attr)
    (hok : merge_custom_checks results check_attributes = Except.ok merged) :
    (pyDictGet merged attr.question = some (MergedCheck.mBool true) ↔
      ∃ r ∈ results, pyDictGet r.custom_checks attr.question =
        some (CheckValue.vBool true)) ∧
    (results ≠ [] →
      (∀ r ∈ results, ∃ v, pyDictGet r.custom_checks attr.question = some v ∧
        (v = CheckValue.vNone ∨ v = CheckValue.vBool false)) →
      pyDictGet merged attr.question = some (MergedCheck.mBool false)) := by
  rw [merge_custom_checks] at hok
  have hlook := merge_checks_fold_lookup results attr hb check_attributes [] merged
    hok hmem huniq
  rw [hlook, boolMergeValue]
  constructor
  · by_cases hv : results.filterMap (fun r => pyDictGet r.custom_checks attr.question) = []
    · rw [if_pos hv]
      constructor
      · intro hcontra
        exact absurd hcontra (by simp)
      · rintro ⟨r, hr, hget⟩
        have := List.filterMap_eq_nil_iff.mp hv r hr
        rw [hget] at this
        exact absurd this (by simp)
    · rw [if_neg hv]
      constructor
      · intro heq
        have hany : (results.filterMap
            (fun r => pyDictGet r.custom_checks attr.question)).any
              (fun v => v == CheckValue.vBool true) = true := by
          have := Option.some.injEq _ _ ▸ heq
          simpa using heq
        obtain ⟨v, hvmem, hvtrue⟩ := List.any_eq_true.mp hany
        obtain ⟨r, hr, hget⟩ := List.mem_filterMap.mp hvmem
        rw [beq_iff_eq] at hvtrue
        exact ⟨r, hr, by rw [hget, hvtrue]⟩
      · rintro ⟨r, hr, hget⟩
        have hany : (results.filterMap
            (fun r => pyDictGet r.custom_checks attr.question)).any
              (fun v => v == CheckValue.vBool true) = true :=
          List.any_eq_true.mpr ⟨CheckValue.vBool true,
            List.mem_filterMap.mpr ⟨r, hr, hget⟩, by simp⟩
        rw [hany]
  · intro hne hall
    have hv : ¬ results.filterMap (fun r => pyDictGet r.custom_checks attr.question) = [] := by
      intro hnil
      cases results with
      | nil => exact hne rfl
      | cons r rest =>
        obtain ⟨v, hget, _⟩ := hall r (List.mem_cons_self r rest)
        have := List.filterMap_eq_nil_iff.mp hnil r (List.mem_cons_self r rest)
        rw [hget] at this
        exact absurd this (by simp)
    rw [if_neg hv]
    have hany : (results.filterMap
        (fun r => pyDictGet r.custom_checks attr.question)).any
          (fun v => v == CheckValue.vBool true) = false := by
      rw [← Bool.not_eq_true, List.any_eq_true]
      rintro ⟨v, hvmem, hvtrue⟩
      obtain ⟨r, hr, hget⟩ := List.mem_filterMap.mp hvmem
      obtain ⟨v2, hget2, hv2⟩ := hall r hr
      rw [hget] at hget2
      rw [Option.some.injEq] at hget2
      rw [beq_iff_eq] at hvtrue
      rw [← hget2, hvtrue] at hv2
      rcases hv2 with h | h <;> exact absurd h (by simp)
    rw [hany]

/-- A boolean check attribute for the C4 witness. -/
def battr : CheckAttribute := ⟨"Q", "boolean", none, none⟩

/-- A chunk result reporting the boolean `True` for `battr`'s question. -/
def bres : AnalysisResult :=
  ⟨"", "gemischt", "", ["k1", "k2"], [("Q", CheckValue.vBool true)], [], none, 0, 0, 0⟩

/-- Witness for C4: a single chunk reporting `True` makes the merged value
`True`. -/
theorem merge_custom_checks_boolean_or_witness :
    ∃ merged, merge_custom_checks [bres] [battr] = Except.ok merged ∧
      pyDictGet merged battr.question = some (MergedCheck.mBool true) := by
  have hok : merge_custom_checks [bres] [battr] =
      Except.ok [("Q", MergedCheck.mBool true)] := by decide
  refine ⟨_, hok, ?_⟩
  exact (merge_custom_checks_boolean_or [bres] [battr] battr _
    (List.mem_singleton.mpr rfl) rfl
    (by
      intro a ha _
      rw [List.mem_singleton] at ha
      exact ha) hok).1.mpr
    ⟨bres, List.mem_singleton.mpr rfl, by decide⟩

/-- Witness for C3 at the concrete input `[positive, negative]`. -/
theorem merge_sentiments_mean_classification_witness :
    merge_sentiments [sres "positiv", sres "negativ"] = Except.ok (specClassifyMean
      (((([sres "positiv", sres "negativ"].map
          (fun r => specSentimentScore r.sentiment)).sum : Int) : ℚ) /
        (([sres "positiv", sres "negativ"] : List AnalysisResult).length : ℚ))) :=
  merge_sentiments_mean_classification.1 [sres "positiv", sres "negativ"]
    (by simp) (by decide)

end ResultMerger

/-! ## `src/keyword_categorizer.py` -/

namespace KeywordCategorizer

/-- `KeywordCategorizer.generate_categories`.  The clustering LLM call and
the JSON parse of its response are modelled by their outcome: the parsed
category → keyword-list map, or any raised failure (timeout, parse error,
service error).  An empty keyword list returns the empty map without
calling the LLM; any failure falls back to the single catch-all category
`"Allgemein"` holding the entire input keyword list. -/
def generate_categories (keywords : List String)
    (llm : Except String (List (String × List String))) :
    List (String × List String) :=
  if keywords = [] then []
  else
    match llm with
    | Except.ok categories => categories
    | Except.error _ => [("Allgemein", keywords)]

/-- Tier (a) of `assign_categories`: the first category whose lower-cased
keyword list contains the lower-cased stripped keyword. -/
def tierExact (category_mapping : List (String × List String))
    (keyword_lower : String) : Option String :=
  (category_mapping.find?
    (fun p => (p.2.map pyLower).contains keyword_lower)).map (fun p => p.1)

/-- Tier (b) of `assign_categories`: the first category one of whose
lower-cased keywords contains, or is contained in, the keyword. -/
def tierSubstring (category_mapping : List (String × List String))
    (keyword_lower : String) : Option String :=
  (category_mapping.find? (fun p => p.2.any (fun ck =>
    pyIn (pyLower ck) keyword_lower || pyIn keyword_lower (pyLower ck)))).map
      (fun p => p.1)

/-- Tier (c) of `assign_categories`: the first category one of whose
keywords shares at least one whitespace-delimited word with the keyword. -/
def tierWordOverlap (category_mapping : List (String × List String))
    (keyword_lower : String) : Option String :=
  (category_mapping.find? (fun p => p.2.any (fun ck =>
    (pySplitWs keyword_lower).any
      (fun w => (pySplitWs (pyLower ck)).contains w)))).map (fun p => p.1)

/-- The per-keyword search of `assign_categories`: lower-case and strip the
keyword, then stop at the first tier that yields a category. -/
def matchKeyword (category_mapping : List (String × List String))
    (keyword : String) : Option String :=
  let keyword_lower := pyStrip (pyLower keyword)
  match tierExact category_mapping keyword_lower with
  | some c => some c
  | none =>
    match tierSubstring category_mapping keyword_lower with
    | some c => some c
    | none => tierWordOverlap category_mapping keyword_lower

/-- Python `sorted` on strings (code-point lexicographic). -/
def sortStrings (l : List String) : List String :=
  l.insertionSort (fun a b => a ≤ b)

/-- The set of categories collected by the keyword loop of
`assign_categories`, in first-match order (each keyword contributes at most
one category). -/
def assignedSet (result : AnalysisResult)
    (category_mapping : List (String × List String)) : List String :=
  result.keywords.filterMap (matchKeyword category_mapping)

/-- `KeywordCategorizer.assign_categories`. -/
def assign_categories (result : AnalysisResult)
    (category_mapping : List (String × List String)) : List String :=
  if pyTruthyOptStr result.error || result.keywords.isEmpty then ["Keine"]
  else if assignedSet result category_mapping = [] then ["Sonstiges"]
  else sortStrings (pyDedup (assignedSet result category_mapping))

theorem pyDedupAux_mem {α : Type} [DecidableEq α] (l : List α) :
    ∀ (seen : List α) (x : α), x ∈ pyDedupAux seen l ↔ x ∈ l ∧ x ∉ seen := by
  induction l with
  | nil =>
    intro seen x
    simp [pyDedupAux]
  | cons a rest ih =>
    intro seen x
    rw [pyDedupAux]
    by_cases ha : a ∈ seen
    · rw [if_pos ha, ih]
      constructor
      · rintro ⟨hx, hs⟩
        exact ⟨List.mem_cons_of_mem a hx, hs⟩
      · rintro ⟨hx, hs⟩
        rcases List.mem_cons.mp hx with rfl | hx
        · exact absurd ha hs
        · exact ⟨hx, hs⟩
    · rw [if_neg ha, List.mem_cons, ih]
      constructor
      · rintro (rfl | ⟨hx, hs⟩)
        · exact ⟨List.mem_cons_self _ _, ha⟩
        · exact ⟨List.mem_cons_of_mem a hx,
            fun h => hs (List.mem_cons_of_mem a h)⟩
      · rintro ⟨hx, hs⟩
        rcases List.mem_cons.mp hx with rfl | hx
        · exact Or.inl rfl
        · by_cases hxa : x = a
          · exact Or.inl hxa
          · refine Or.inr ⟨hx, ?_⟩
            intro hmem
            rcases List.mem_cons.mp hmem with h | h
            · exact hxa h
            · exact hs h

theorem pyDedupAux_nodup {α : Type} [DecidableEq α] (l : List α) :
    ∀ seen : List α, (pyDedupAux seen l).Nodup := by
  induction l with
  | nil =>
    intro seen
    simp [pyDedupAux]
  | cons a rest ih =>
    intro seen
    rw [pyDedupAux]
    by_cases ha : a ∈ seen
    · rw [if_pos ha]
      exact ih seen
    · rw [if_neg ha]
      refine List.nodup_cons.mpr ⟨?_, ih (a :: seen)⟩
      intro hmem
      exact ((pyDedupAux_mem rest (a :: seen) a).mp hmem).2 (List.mem_cons_self a seen)

theorem pyDedup_mem {α : Type} [DecidableEq α] (l : List α) (x : α) :
    x ∈ pyDedup l ↔ x ∈ l := by
  rw [pyDedup, pyDedupAux_mem]
  simp

theorem pyDedup_nodup {α : Type} [DecidableEq α] (l : List α) :
    (pyDedup l).Nodup := pyDedupAux_nodup l []

/-- C6 (amended): a record whose `error` is truthy or whose keyword list is
empty yields the sentinel `["Keine"]`; otherwise, if no keyword matches any
category under the three fallback tiers the result is the sentinel
`["Sonstiges"]`, and otherwise it is the sorted, de-duplicated list of the
matched category names (which can itself be `["Keine"]` when a category
bears that name, so the sentinel reading of `["Keine"]` is only
one-directional). -/
theorem assign_categories_sentinels (result : AnalysisResult)
    (category_mapping : List (String × List String)) :
    ((pyTruthyOptStr result.error || result.keywords.isEmpty) = true →
      assign_categories result category_mapping = ["Keine"]) ∧
    ((pyTruthyOptStr result.error || result.keywords.isEmpty) = false →
      ((∀ kw ∈ result.keywords, matchKeyword category_mapping kw = none) →
        assign_categories result category_mapping = ["Sonstiges"]) ∧
      (¬ (∀ kw ∈ result.keywords, matchKeyword category_mapping kw = none) →
        (assign_categories result category_mapping).Sorted (fun a b => a ≤ b) ∧
        (assign_categories result category_mapping).Nodup ∧
        (∀ c, c ∈ assign_categories result category_mapping ↔
          ∃ kw ∈ result.keywords, matchKeyword category_mapping kw = some c))) := by
  constructor
  · intro hcond
    rw [assign_categories, if_pos hcond]
  · intro hcond
    have hcond2 : ¬ ((pyTruthyOptStr result.error || result.keywords.isEmpty) = true) := by
      rw [hcond]
      exact Bool.false_ne_true
    constructor
    · intro hnone
      have hnil : assignedSet result category_mapping = [] := by
        rw [assignedSet]
        exact List.filterMap_eq_nil_iff.mpr hnone
      rw [assign_categories, if_neg hcond2, if_pos hnil]
    · intro hsome
      have hnnil : ¬ (assignedSet result category_mapping = []) := by
        intro hnil
        rw [assignedSet, List.filterMap_eq_nil_iff] at hnil
        exact hsome hnil
      rw [assign_categories, if_neg hcond2, if_neg hnnil, sortStrings]
      refine ⟨List.sorted_insertionSort _ _, ?_, ?_⟩
      · exact (List.perm_insertionSort _ _).nodup_iff.mpr
          (pyDedup_nodup (assignedSet result category_mapping))
      · intro c
        rw [(List.perm_insertionSort _ _).mem_iff, pyDedup_mem, assignedSet,
          List.mem_filterMap]

/-- Witness for C6 at a record carrying an error. -/
theorem assign_categories_sentinels_witness :
    assign_categories ⟨"", "gemischt", "", ["k1", "k2"], [], [], some "Fehler", 0, 0, 0⟩
      [] = ["Keine"] :=
  (assign_categories_sentinels
    ⟨"", "gemischt", "", ["k1", "k2"], [], [], some "Fehler", 0, 0, 0⟩ []).1 (by decide)

/-- C6 counterexample: the claim's "exactly when" direction fails — a
record with no error and non-empty keywords is assigned `["Keine"]` when
the clustering produced a category literally named `"Keine"` that matches
its keywords. -/
theorem assign_categories_keine_collision :
    assign_categories ⟨"", "gemischt", "", ["x", "y"], [], [], none, 0, 0, 0⟩
        [("Keine", ["x", "y"])] = ["Keine"] ∧
    (⟨"", "gemischt", "", ["x", "y"], [], [], none, 0, 0, 0⟩ : AnalysisResult).error = none ∧
    (⟨"", "gemischt", "", ["x", "y"], [], [], none, 0, 0, 0⟩ : AnalysisResult).keywords ≠ [] := by
  decide

/-- C7 counterexample: tier (b) substring matching does not fire on the
spec's own example — neither of `"financial support"` and
`"financial aid support"` contains the other as a (contiguous) substring,
so the substring tier finds no category. -/
theorem finance_tier_b_no_match :
    tierSubstring [("Finance", ["financial support"])]
      (pyStrip (pyLower "financial aid support")) = none ∧
    pyIn (pyLower "financial support") "financial aid support" = false ∧
    pyIn "financial aid support" (pyLower "financial support") = false := by
  decide

/-- C7 (amended): for the category map mapping "Finance" to
`["financial support"]`, a non-errored record whose keyword is
`"financial aid support"` is assigned to "Finance" — but by tier (c)
word-overlap matching (the shared words "financial" and "support"), not by
tier (b) substring containment, which matches in neither direction. -/
theorem finance_word_overlap_assigns :
    assign_categories ⟨"", "gemischt", "", ["financial aid support"], [], [], none, 0, 0, 0⟩
        [("Finance", ["financial support"])] = ["Finance"] ∧
    tierWordOverlap [("Finance", ["financial support"])]
      (pyStrip (pyLower "financial aid support")) = some "Finance" ∧
    tierExact [("Finance", ["financial support"])]
      (pyStrip (pyLower "financial aid support")) = none := by
  decide

/-- C8: when the clustering LLM call fails for any reason, a non-empty
keyword list yields the single catch-all category `"Allgemein"` whose
keyword list is exactly the entire input, and the function returns rather
than raising. -/
theorem generate_categories_failure_fallback (keywords : List String)
    (e : String) (hne : keywords ≠ []) :
    generate_categories keywords (Except.error e) = [("Allgemein", keywords)] ∧
    (generate_categories keywords (Except.error e)).length = 1 := by
  rw [generate_categories, if_neg hne]
  exact ⟨rfl, rfl⟩

/-- Witness for C8 at a concrete keyword list and failure. -/
theorem generate_categories_failure_fallback_witness :
    generate_categories ["kw1", "kw2"] (Except.error "Timeout") =
      [("Allgemein", ["kw1", "kw2"])] :=
  (generate_categories_failure_fallback ["kw1", "kw2"] "Timeout" (by decide)).1

end KeywordCategorizer

/-! ## `src/llm_analyzer.py` -/

namespace LLMAnalyzer

/-- The fields `_parse_llm_response` extracts from a successfully parsed
JSON object with `data.get(...)`: paraphrase, sentiment, sentiment reason,
keywords, custom checks and their reasons (the code's defaults for missing
keys are the caller's concern when building a value of this type: `""`,
`"gemischt"`, `""`, `[]`, `{}`, `{}`). -/
structure RawResponse where
  paraphrase : String
  sentiment : String
  sentiment_reason : String
  keywords : List String
  custom_checks : List (String × CheckValue)
  custom_checks_reasons : List (String × String)
deriving Repr, DecidableEq

/-- The body handed to `_parse_llm_response`: either a body that fails the
emptiness check or `json.loads` (both raise `ValueError`), or the parsed
JSON object. -/
inductive ResponseContent where
  | invalidJson (msg : String)
  | parsed (data : RawResponse)
deriving Repr, DecidableEq

/-- One chat-completion response: optional message content and optional
usage counters (prompt, completion, total). -/
structure LLMResponse where
  content : Option ResponseContent
  usage : Option (Nat × Nat × Nat)
deriving Repr, DecidableEq

/-- Outcome of one `client.chat.completions.create` call: the exception it
raises, or its response. -/
inductive CallOutcome where
  | apiTimeout
  | rateLimit
  | apiError (msg : String)
  | unexpected (msg : String)
  | response (r : LLMResponse)
deriving Repr, DecidableEq

/-- Sentiment validation of `_parse_llm_response`: a value outside the
three valid sentiments is coerced to `"gemischt"`. -/
def normalizeSentiment (sentiment : String) : String :=
  if sentiment = "positiv" ∨ sentiment = "negativ" ∨ sentiment = "gemischt" then
    sentiment
  else "gemischt"

/-- Keyword-count validation of `_parse_llm_response`: fewer than 2
keywords are padded with `"unbekannt"`, more than 4 are truncated to the
first 4. -/
def normalizeKeywords (keywords : List String) : List String :=
  if keywords.length < 2 then padKeywords keywords
  else if 4 < keywords.length then keywords.take 4
  else keywords

/-- `LLMAnalyzer._parse_llm_response` on the (already stripped and
code-fence-cleaned) response body: an empty or unparseable body raises
`ValueError`; otherwise the extracted fields are normalized and the
`AnalysisResult` is constructed. -/
def parse_llm_response (content : ResponseContent) :
    Except String AnalysisResult :=
  match content with
  | ResponseContent.invalidJson msg => Except.error msg
  | ResponseContent.parsed data =>
    AnalysisResult.make data.paraphrase (normalizeSentiment data.sentiment)
      data.sentiment_reason (normalizeKeywords data.keywords)
      data.custom_checks (some data.custom_checks_reasons) none 0 0 0

/-- The failed-result shape used by every error branch of `analyze_text`:
empty payload, placeholder sentiment `"gemischt"`, exactly two sentinel
keywords, the error message set. -/
def failResult (kw1 kw2 msg : String) : Except String AnalysisResult :=
  AnalysisResult.make "" "gemischt" "" [kw1, kw2] [] (some []) (some msg) 0 0 0

/-- `usage.prompt_tokens if usage else 0` and friends. -/
def setUsage (r : AnalysisResult) (usage : Option (Nat × Nat × Nat)) :
    AnalysisResult :=
  { r with
    prompt_tokens := (usage.map (fun u => u.1)).getD 0
    completion_tokens := (usage.map (fun u => u.2.1)).getD 0
    total_tokens := (usage.map (fun u => u.2.2)).getD 0 }

/-- The retry loop `for attempt in range(max_retries)` of
`analyze_text`, structurally recursive on the number of remaining
attempts; the current python `attempt` is `max_retries - remaining`.  The
call outcomes are modelled by the oracle `outcomes : Nat → CallOutcome`
indexed by `attempt`.  Exhausting the loop reaches the final fallback
result; a timeout, rate limit or parse error retries unless this is the
last attempt; an API error or unexpected exception fails immediately;
`None` content retries like a parse error. -/
def analyzeLoop (outcomes : Nat → CallOutcome) (max_retries : Nat) :
    Nat → Except String AnalysisResult
  | 0 => failResult "fehler" "unbekannt" "Maximale Versuche erreicht"
  | remaining + 1 =>
    match outcomes (max_retries - (remaining + 1)) with
    | CallOutcome.apiTimeout =>
      if max_retries - (remaining + 1) < max_retries - 1 then
        analyzeLoop outcomes max_retries remaining
      else
        failResult "fehler" "timeout"
          ("API-Timeout nach " ++ toString max_retries ++ " Versuchen")
    | CallOutcome.rateLimit =>
      if max_retries - (remaining + 1) < max_retries - 1 then
        analyzeLoop outcomes max_retries remaining
      else
        failResult "fehler" "rate-limit"
          ("Rate-Limit nach " ++ toString max_retries ++ " Versuchen")
    | CallOutcome.apiError msg => failResult "fehler" "api" msg
    | CallOutcome.unexpected msg => failResult "fehler" "unbekannt" msg
    | CallOutcome.response r =>
      match r.content with
      | none =>
        if max_retries - (remaining + 1) < max_retries - 1 then
          analyzeLoop outcomes max_retries remaining
        else
          failResult "fehler" "keine-antwort"
            "LLM hat nach mehreren Versuchen None zurückgegeben"
      | some c =>
        match parse_llm_response c with
        | Except.error e =>
          if max_retries - (remaining + 1) < max_retries - 1 then
            analyzeLoop outcomes max_retries remaining
          else failResult "fehler" "parse" e
        | Except.ok result => Except.ok (setUsage result r.usage)

set_option linter.unusedVariables false in
/-- `LLMAnalyzer.analyze_text`: blank text short-circuits to a failed
result with the sentinel keywords `["leer", "keine"]` before any LLM call;
otherwise the retry loop runs with `max_retries` attempts.
`check_attributes` only shapes the prompt, which the model of the LLM
boundary absorbs into the outcome oracle. -/
def analyze_text (text : String) (check_attributes : List CheckAttribute)
    (outcomes : Nat → CallOutcome) (max_retries : Nat) :
    Except String AnalysisResult :=
  if pyStrip text = "" then
    AnalysisResult.make "" "gemischt" "" ["leer", "keine"] [] (some [])
      (some "Leerer Text") 0 0 0
  else analyzeLoop outcomes max_retries max_retries

theorem make_ok (p s sr : String) (ks : List String)
    (cc : List (String × CheckValue)) (ccr : Option (List (String × String)))
    (e : Option String) (pt ct tt : Nat)
    (hs : s = "positiv" ∨ s = "negativ" ∨ s = "gemischt")
    (hk : 2 ≤ ks.length ∧ ks.length ≤ 4) :
    AnalysisResult.make p s sr ks cc ccr e pt ct tt =
      Except.ok ⟨p, s, sr, ks, cc, ccr.getD [], e, pt, ct, tt⟩ := by
  rw [AnalysisResult.make, if_neg (by tauto), if_neg (by tauto)]

theorem failResult_ok (kw1 kw2 msg : String) :
    failResult kw1 kw2 msg =
      Except.ok ⟨"", "gemischt", "", [kw1, kw2], [], [], some msg, 0, 0, 0⟩ := by
  rw [failResult]
  exact make_ok _ _ _ _ _ _ _ _ _ _ (Or.inr (Or.inr rfl)) (by simp)

theorem padKeywords_length (ks : List String) :
    (padKeywords ks).length = max 2 ks.length := by
  cases ks with
  | nil => rfl
  | cons a t =>
    cases t with
    | nil => rfl
    | cons b t2 =>
      show (a :: b :: t2).length = max 2 (a :: b :: t2).length
      simp only [List.length_cons]
      omega

theorem normalizeKeywords_length (ks : List String) :
    2 ≤ (normalizeKeywords ks).length ∧ (normalizeKeywords ks).length ≤ 4 := by
  rw [normalizeKeywords]
  split_ifs with h1 h2
  · rw [padKeywords_length]
    omega
  · rw [List.length_take]
    omega
  · omega

theorem normalizeSentiment_valid (s : String) :
    normalizeSentiment s = "positiv" ∨ normalizeSentiment s = "negativ" ∨
      normalizeSentiment s = "gemischt" := by
  rw [normalizeSentiment]
  split_ifs with h
  · exact h
  · exact Or.inr (Or.inr rfl)

theorem parse_llm_response_parsed (data : RawResponse) :
    parse_llm_response (ResponseContent.parsed data) =
      Except.ok ⟨data.paraphrase, normalizeSentiment data.sentiment,
        data.sentiment_reason, normalizeKeywords data.keywords,
        data.custom_checks, data.custom_checks_reasons, none, 0, 0, 0⟩ := by
  rw [parse_llm_response]
  exact make_ok _ _ _ _ _ _ _ _ _ _ (normalizeSentiment_valid data.sentiment)
    (normalizeKeywords_length data.keywords)

theorem analyzeLoop_bounds (outcomes : Nat → CallOutcome) (max_retries : Nat) :
    ∀ remaining, ∃ r,
      analyzeLoop outcomes max_retries remaining = Except.ok r ∧
      2 ≤ r.keywords.length ∧ r.keywords.length ≤ 4 ∧
      (r.error ≠ none → r.keywords.length = 2 ∧ r.sentiment = "gemischt") := by
  intro remaining
  induction remaining with
  | zero =>
    exact ⟨_, failResult_ok _ _ _, by simp, by simp, fun _ => ⟨by simp, rfl⟩⟩
  | succ n ih =>
    cases houtcome : outcomes (max_retries - (n + 1)) with
    | apiTimeout =>
      simp only [analyzeLoop, houtcome]
      split_ifs with h
      · exact ih
      · exact ⟨_, failResult_ok _ _ _, by simp, by simp, fun _ => ⟨by simp, rfl⟩⟩
    | rateLimit =>
      simp only [analyzeLoop, houtcome]
      split_ifs with h
      · exact ih
      · exact ⟨_, failResult_ok _ _ _, by simp, by simp, fun _ => ⟨by simp, rfl⟩⟩
    | apiError msg =>
      simp only [analyzeLoop, houtcome]
      exact ⟨_, failResult_ok _ _ _, by simp, by simp, fun _ => ⟨by simp, rfl⟩⟩
    | unexpected msg =>
      simp only [analyzeLoop, houtcome]
      exact ⟨_, failResult_ok _ _ _, by simp, by simp, fun _ => ⟨by simp, rfl⟩⟩
    | response r =>
      simp only [analyzeLoop, houtcome]
      cases hc : r.content with
      | none =>
        split_ifs with h
        · exact ih
        · exact ⟨_, failResult_ok _ _ _, by simp, by simp, fun _ => ⟨by simp, rfl⟩⟩
      | some c =>
        cases c with
        | invalidJson msg =>
          simp only [parse_llm_response]
          split_ifs with h
          · exact ih
          · exact ⟨_, failResult_ok _ _ _, by simp, by simp, fun _ => ⟨by simp, rfl⟩⟩
        | parsed data =>
          simp only [parse_llm_response_parsed]
          refine ⟨_, rfl, ?_, ?_, ?_⟩
          · exact (normalizeKeywords_length data.keywords).1
          · exact (normalizeKeywords_length data.keywords).2
          · intro herr
            exact absurd rfl herr

/-- C5: every call of `analyze_text` returns a structurally valid result
whose keyword list has between 2 and 4 entries, whatever the raw LLM
responses were; every failed result (error set) carries exactly 2 sentinel
keywords and the placeholder sentiment `"gemischt"`; and the parser
corrects raw keyword counts of 0, 1, 5 and 10 to 2, 2, 4 and 4. -/
theorem analyze_text_keyword_bounds :
    (∀ (text : String) (check_attributes : List CheckAttribute)
        (outcomes : Nat → CallOutcome) (max_retries : Nat),
      ∃ r, analyze_text text check_attributes outcomes max_retries = Except.ok r ∧
        2 ≤ r.keywords.length ∧ r.keywords.length ≤ 4 ∧
        (r.error ≠ none → r.keywords.length = 2 ∧ r.sentiment = "gemischt")) ∧
    (parse_llm_response (ResponseContent.parsed
      ⟨"", "gemischt", "", [], [], []⟩)).map (fun r => r.keywords.length) =
      Except.ok 2 ∧
    (parse_llm_response (ResponseContent.parsed
      ⟨"", "gemischt", "", ["a"], [], []⟩)).map (fun r => r.keywords.length) =
      Except.ok 2 ∧
    (parse_llm_response (ResponseContent.parsed
      ⟨"", "gemischt", "", ["a", "b", "c", "d", "e"], [], []⟩)).map
        (fun r => r.keywords.length) = Except.ok 4 ∧
    (parse_llm_response (ResponseContent.parsed
      ⟨"", "gemischt", "", ["a", "b", "c", "d", "e", "f", "g", "h", "i", "j"],
        [], []⟩)).map (fun r => r.keywords.length) = Except.ok 4 := by
  refine ⟨?_, by decide, by decide, by decide, by decide⟩
  intro text check_attributes outcomes max_retries
  rw [analyze_text]
  split_ifs with h
  · exact ⟨_, make_ok _ _ _ _ _ _ _ _ _ _ (Or.inr (Or.inr rfl)) (by simp),
      by simp, by simp, fun _ => ⟨by simp, rfl⟩⟩
  · exact analyzeLoop_bounds outcomes max_retries max_retries

/-- Witness for C5 at a concrete text and an always-timing-out service. -/
theorem analyze_text_keyword_bounds_witness :
    ∃ r, analyze_text "Text" [] (fun _ => CallOutcome.apiTimeout) 3 =
        Except.ok r ∧ 2 ≤ r.keywords.length ∧ r.keywords.length ≤ 4 :=
  match analyze_text_keyword_bounds.1 "Text" [] (fun _ => CallOutcome.apiTimeout) 3 with
  | ⟨r, h1, h2, h3, _⟩ => ⟨r, h1, h2, h3⟩

end LLMAnalyzer

end QlassifAI
